import Mathlib

/-!
Verification development for the Region & Swipe Designer (Zom-Mation.py).

The Python source is shallowly embedded: Python ints become `ℤ`, Python
floats become exact rationals `ℚ` (the program only multiplies, divides and
truncates values whose magnitudes keep the double computations in agreement
with exact arithmetic at every input used in a theorem below), `int(...)`
truncation toward zero becomes `pytrunc`, Python dicts (which preserve
insertion order) become association lists `List (String × _)`, and Python
list operations (`pop`, `insert`, negative indexing, tuple-swap assignment)
are modelled with their exact clamping / from-the-end semantics.
-/

namespace ZomMation

/-- Python `int(q)`: truncation of a real value toward zero, computed as the
truncating division of the numerator by the denominator. -/
def pytrunc (q : ℚ) : ℤ :=
  q.num.tdiv q.den

theorem pytrunc_eq (q : ℚ) : pytrunc q = if 0 ≤ q then ⌊q⌋ else ⌈q⌉ := by
  unfold pytrunc
  split
  · next h =>
    rw [Rat.floor_def]
    exact Int.tdiv_eq_ediv (Rat.num_nonneg.mpr h) (Int.natCast_nonneg _)
  · next h =>
    have hq : 0 ≤ -q := by linarith [lt_of_not_le h]
    have hceil : ⌈q⌉ = -⌊-q⌋ := by rw [Int.floor_neg, neg_neg]
    have hnum : q.num.tdiv q.den = -((-q.num).tdiv q.den) := by
      rw [Int.neg_tdiv, neg_neg]
    rw [hceil, Rat.floor_def, Rat.num_neg_eq_neg_num, Rat.den_neg_eq_den, hnum,
      Int.tdiv_eq_ediv (by simpa using Rat.num_nonneg.mpr hq) (Int.natCast_nonneg _)]

theorem pytrunc_sub_abs_lt_one (q : ℚ) : |(pytrunc q : ℚ) - q| < 1 := by
  rw [pytrunc_eq]
  split
  · rw [abs_sub_comm]
    rw [abs_of_nonneg (by linarith [Int.floor_le q])]
    linarith [Int.lt_floor_add_one q]
  · rw [abs_of_nonneg (by linarith [Int.le_ceil q])]
    linarith [Int.ceil_lt_add_one q]

theorem pytrunc_intCast (n : ℤ) : pytrunc (n : ℚ) = n := by
  rw [pytrunc_eq]
  split <;> simp

theorem pytrunc_eq_of_bounds {q : ℚ} {n : ℤ} (h0 : 0 ≤ q) (h1 : (n : ℚ) ≤ q)
    (h2 : q < n + 1) : pytrunc q = n := by
  rw [pytrunc_eq, if_pos h0, Int.floor_eq_iff]
  exact ⟨h1, by exact_mod_cast h2⟩

/-- Model of `RegionRect` from `Zom-Mation.py`: a named screen-space rectangle. -/
structure RegionRect where
  name : String
  x : ℤ
  y : ℤ
  w : ℤ
  h : ℤ
  custom : Bool := false
deriving DecidableEq, Repr

/-- Model of `RegionRect.bounds`: `(x, y, x + w, y + h)`. -/
def RegionRect.bounds (r : RegionRect) : ℤ × ℤ × ℤ × ℤ :=
  (r.x, r.y, r.x + r.w, r.y + r.h)

/-- Model of `RegionRect.clamp`: clamp a point into the rectangle bounds. -/
def RegionRect.clampPt (r : RegionRect) (px py : ℤ) : ℤ × ℤ :=
  (min (max px r.x) (r.x + r.w), min (max py r.y) (r.y + r.h))

/-- Model of `compute_regions`: the ten named presets, in source order. Python `//`
is floor division (`Int.fdiv`); the three `Agnes_Region` entries are
`int(H * 0.08)`, `int(W * 0.30)`, `int(H * 0.42)`, i.e. `pytrunc` of exact
products (which agree with the double computations at the inputs proved
about below). -/
def compute_regions (W H : ℤ) : List (String × RegionRect) :=
  [ ("Upper_Half",         ⟨"Upper_Half",         0, 0, W, H.fdiv 2, false⟩),
    ("Lower_Half",         ⟨"Lower_Half",         0, H.fdiv 2, W, H.fdiv 2, false⟩),
    ("Upper_Left",         ⟨"Upper_Left",         0, 0, W.fdiv 2, H.fdiv 2, false⟩),
    ("Upper_Right",        ⟨"Upper_Right",        W.fdiv 2, 0, W.fdiv 2, H.fdiv 2, false⟩),
    ("Lower_Left",         ⟨"Lower_Left",         0, H.fdiv 2, W.fdiv 2, H.fdiv 2, false⟩),
    ("Lower_Right",        ⟨"Lower_Right",        W.fdiv 2, H.fdiv 2, W.fdiv 2, H.fdiv 2, false⟩),
    ("Home_Screen_Region", ⟨"Home_Screen_Region", W.fdiv 2 - 20, 0, 40, 40, false⟩),
    ("Lower_Most_Half",    ⟨"Lower_Most_Half",    0, H - H.fdiv 14, W, H.fdiv 14, false⟩),
    ("Agnes_Region",       ⟨"Agnes_Region",       0, pytrunc ((8 / 100 : ℚ) * H),
                             pytrunc ((30 / 100 : ℚ) * W), pytrunc ((42 / 100 : ℚ) * H), false⟩),
    ("Main",               ⟨"Main",               0, 0, W, H.fdiv 2, false⟩) ]

/-- C9: at screen 720×1520 the presets include
`Upper_Half = Region(0, 0, 720, 760)` and `Agnes_Region` at
`x = 0, y = 121, w = 216, h = 638`, the latter as the truncations of
`1520 * 0.08`, `720 * 0.30` and `1520 * 0.42`. -/
theorem compute_regions_720_1520 :
    (compute_regions 720 1520).lookup "Upper_Half" =
      some ⟨"Upper_Half", 0, 0, 720, 760, false⟩ ∧
    (compute_regions 720 1520).lookup "Agnes_Region" =
      some ⟨"Agnes_Region", 0, 121, 216, 638, false⟩ ∧
    pytrunc ((8 / 100 : ℚ) * 1520) = 121 ∧
    pytrunc ((30 / 100 : ℚ) * 720) = 216 ∧
    pytrunc ((42 / 100 : ℚ) * 1520) = 638 := by
  have hy : pytrunc ((8 / 100 : ℚ) * ((1520 : ℤ) : ℚ)) = 121 :=
    pytrunc_eq_of_bounds (by norm_num) (by norm_num) (by norm_num)
  have hw : pytrunc ((30 / 100 : ℚ) * ((720 : ℤ) : ℚ)) = 216 :=
    pytrunc_eq_of_bounds (by norm_num) (by norm_num) (by norm_num)
  have hh : pytrunc ((42 / 100 : ℚ) * ((1520 : ℤ) : ℚ)) = 638 :=
    pytrunc_eq_of_bounds (by norm_num) (by norm_num) (by norm_num)
  refine ⟨by decide, ?_, by exact_mod_cast hy, by exact_mod_cast hw, by exact_mod_cast hh⟩
  simp only [compute_regions, List.lookup, hy, hw, hh]
  decide

/-- The canvas view transform of `Canvas`: fit scale, centering offsets, user
zoom and pan offsets.  Scales are rationals (Python floats), offsets are
integers as in the source. -/
structure ViewT where
  scale_to_fit : ℚ
  offset_fit_x : ℤ
  offset_fit_y : ℤ
  zoom_factor : ℚ
  pan_offset_x : ℤ
  pan_offset_y : ℤ
deriving DecidableEq, Repr

/-- Model of `Canvas.actual_scale`: `scale_to_fit * zoom_factor`. -/
def ViewT.actual_scale (v : ViewT) : ℚ :=
  v.scale_to_fit * v.zoom_factor

/-- Model of `Canvas.final_offsets`: fit offsets plus pan offsets. -/
def ViewT.final_offsets (v : ViewT) : ℤ × ℤ :=
  (v.offset_fit_x + v.pan_offset_x, v.offset_fit_y + v.pan_offset_y)

/-- Model of `Canvas.canvas_to_screen`: inverse affine map, guarding scale `= 0` with
the degenerate result `(0, 0)`; `int(...)` truncation on each coordinate. -/
def ViewT.canvas_to_screen (v : ViewT) (cx cy : ℤ) : ℤ × ℤ :=
  let scale := v.actual_scale
  let off := v.final_offsets
  if scale = 0 then (0, 0)
  else (pytrunc (((cx : ℚ) - (off.1 : ℚ)) / scale), pytrunc (((cy : ℚ) - (off.2 : ℚ)) / scale))

/-- Model of `Canvas.wheelEvent`: factor `1.1` for a positive wheel delta else `0.9`,
zoom clamped to `[0.1, 10.0]`, then the pan offsets are recomputed so that
the screen point under the (float) pointer position stays under it. -/
def ViewT.wheelEvent (v : ViewT) (mx my : ℚ) (deltaY : ℤ) : ViewT :=
  let factor : ℚ := if 0 < deltaY then 11 / 10 else 9 / 10
  let new_zoom := max (1 / 10) (min (v.zoom_factor * factor) 10)
  let s := v.canvas_to_screen (pytrunc mx) (pytrunc my)
  let scale := v.scale_to_fit * new_zoom
  let new_px : ℚ := (v.offset_fit_x : ℚ) + (s.1 : ℚ) * scale
  let new_py : ℚ := (v.offset_fit_y : ℚ) + (s.2 : ℚ) * scale
  { v with zoom_factor := new_zoom,
           pan_offset_x := pytrunc (mx - new_px),
           pan_offset_y := pytrunc (my - new_py) }

theorem anchored_coord_bound (F B mx sc : ℚ) (hsc : 0 < sc) :
    |((pytrunc (((pytrunc mx : ℚ) - (F + (pytrunc (mx - (F + B * sc)) : ℚ))) / sc) : ℚ)) - B|
      < 1 + 2 / sc := by
  have h1 : |(pytrunc mx : ℚ) - mx| < 1 := pytrunc_sub_abs_lt_one mx
  have h2 : |(pytrunc (mx - (F + B * sc)) : ℚ) - (mx - (F + B * sc))| < 1 :=
    pytrunc_sub_abs_lt_one _
  have hne : sc ≠ 0 := ne_of_gt hsc
  set c : ℚ := (pytrunc mx : ℚ) with hc
  set p : ℚ := (pytrunc (mx - (F + B * sc)) : ℚ) with hp
  set ε : ℚ := (c - mx) - (p - (mx - (F + B * sc))) with he
  have key : (c - (F + p)) / sc = B + ε / sc := by
    field_simp
    ring
  have hε : |ε| < 2 := by
    rcases abs_lt.mp h1 with ⟨h1a, h1b⟩
    rcases abs_lt.mp h2 with ⟨h2a, h2b⟩
    exact abs_lt.mpr ⟨by linarith, by linarith⟩
  have h3 : |(pytrunc ((c - (F + p)) / sc) : ℚ) - (B + ε / sc)| < 1 := by
    have h := pytrunc_sub_abs_lt_one ((c - (F + p)) / sc)
    nth_rewrite 2 [key] at h
    exact h
  have h4 : |ε / sc| < 2 / sc := by
    rw [abs_div, abs_of_pos hsc]
    gcongr
  calc |(pytrunc ((c - (F + p)) / sc) : ℚ) - B|
      = |((pytrunc ((c - (F + p)) / sc) : ℚ) - (B + ε / sc)) + ε / sc| := by
        congr 1
        ring
    _ ≤ |(pytrunc ((c - (F + p)) / sc) : ℚ) - (B + ε / sc)| + |ε / sc| := abs_add _ _
    _ < 1 + 2 / sc := add_lt_add h3 h4

/-- C4: cursor-anchored zoom invariant.  For every view transform with
positive fit scale and zoom (effective scale nonzero) and every pointer
position, after a wheel zoom at that position `canvas_to_screen` of the
pointer agrees with its value before the zoom up to the integer-rounding
tolerance `1 + 2 / newScale` screen pixels (with exact arithmetic the two
agree exactly; the slack is produced solely by the `int(...)` truncations of
the pointer position and the readjusted pan offset). -/
theorem wheel_zoom_anchored (v : ViewT) (mx my : ℚ) (dY : ℤ)
    (hf : 0 < v.scale_to_fit) (hz : 0 < v.zoom_factor) :
    |(((v.wheelEvent mx my dY).canvas_to_screen (pytrunc mx) (pytrunc my)).1 : ℚ) -
        ((v.canvas_to_screen (pytrunc mx) (pytrunc my)).1 : ℚ)| <
      1 + 2 / (v.wheelEvent mx my dY).actual_scale ∧
    |(((v.wheelEvent mx my dY).canvas_to_screen (pytrunc mx) (pytrunc my)).2 : ℚ) -
        ((v.canvas_to_screen (pytrunc mx) (pytrunc my)).2 : ℚ)| <
      1 + 2 / (v.wheelEvent mx my dY).actual_scale := by
  have hnz : (0 : ℚ) < max (1 / 10) (min (v.zoom_factor * (if 0 < dY then 11 / 10 else 9 / 10)) 10) :=
    lt_of_lt_of_le (by norm_num) (le_max_left _ _)
  have hsc' : 0 < v.scale_to_fit * max (1 / 10) (min (v.zoom_factor * (if 0 < dY then 11 / 10 else 9 / 10)) 10) :=
    mul_pos hf hnz
  have hsc : v.scale_to_fit * v.zoom_factor ≠ 0 := ne_of_gt (mul_pos hf hz)
  constructor
  · simp only [ViewT.wheelEvent, ViewT.canvas_to_screen, ViewT.actual_scale,
      ViewT.final_offsets, if_neg hsc, if_neg (ne_of_gt hsc')]
    push_cast
    exact anchored_coord_bound _ _ _ _ hsc'
  · simp only [ViewT.wheelEvent, ViewT.canvas_to_screen, ViewT.actual_scale,
      ViewT.final_offsets, if_neg hsc, if_neg (ne_of_gt hsc')]
    push_cast
    exact anchored_coord_bound _ _ _ _ hsc'

theorem wheel_zoom_anchored_witness :
    (0 : ℚ) < (ViewT.mk 1 0 0 1 0 0).scale_to_fit ∧
    (0 : ℚ) < (ViewT.mk 1 0 0 1 0 0).zoom_factor ∧
    (|((((ViewT.mk 1 0 0 1 0 0).wheelEvent 50 50 120).canvas_to_screen
          (pytrunc 50) (pytrunc 50)).1 : ℚ) -
        (((ViewT.mk 1 0 0 1 0 0).canvas_to_screen (pytrunc 50) (pytrunc 50)).1 : ℚ)| <
      1 + 2 / ((ViewT.mk 1 0 0 1 0 0).wheelEvent 50 50 120).actual_scale ∧
    |((((ViewT.mk 1 0 0 1 0 0).wheelEvent 50 50 120).canvas_to_screen
          (pytrunc 50) (pytrunc 50)).2 : ℚ) -
        (((ViewT.mk 1 0 0 1 0 0).canvas_to_screen (pytrunc 50) (pytrunc 50)).2 : ℚ)| <
      1 + 2 / ((ViewT.mk 1 0 0 1 0 0).wheelEvent 50 50 120).actual_scale) :=
  ⟨by norm_num, by norm_num,
    wheel_zoom_anchored (ViewT.mk 1 0 0 1 0 0) 50 50 120 (by norm_num) (by norm_num)⟩

/-- An action record (`act` dict in `MainWindow.add_action`).  Each optional
field models the presence of the corresponding dict key; `fromPt`/`toPt`
stand for the Python keys `"from"`/`"to"`. -/
structure PyAction where
  type : String
  img : Option String := none
  region : Option String := none
  sim : Option ℚ := none
  timeout : Option ℤ := none
  fromPt : Option (ℤ × ℤ) := none
  toPt : Option (ℤ × ℤ) := none
  duration : Option ℚ := none
  message : Option String := none
  keycode : Option ℤ := none
deriving DecidableEq, Repr

/-- Strip leading and trailing whitespace from a character list (the
whitespace handling of Python `int(str)`). -/
def pyStrip (l : List Char) : List Char :=
  ((l.dropWhile (fun c => c.isWhitespace)).reverse.dropWhile (fun c => c.isWhitespace)).reverse

def digitsVal (ds : List Char) : ℤ :=
  ds.foldl (fun a c => a * 10 + ((c.toNat : ℤ) - ('0'.toNat : ℤ))) 0

/-- Python `int(str)` on its ASCII core: optional surrounding whitespace, an
optional sign, then a nonempty run of decimal digits; `none` models the
`ValueError` raised on any other content. -/
def pyIntParse (s : String) : Option ℤ :=
  match pyStrip s.data with
  | [] => none
  | c :: rest =>
    let sd : ℤ × List Char :=
      if c = '-' then (-1, rest) else if c = '+' then (1, rest) else (1, c :: rest)
    if sd.2 ≠ [] ∧ sd.2.all (fun d => d.isDigit) then some (sd.1 * digitsVal sd.2) else none

def startsWithChars : List Char → List Char → Bool
  | [], _ => true
  | _ :: _, [] => false
  | a :: as, b :: bs => (a = b) && startsWithChars as bs

def containsChars (sub : List Char) : List Char → Bool
  | [] => sub.isEmpty
  | b :: bs => startsWithChars sub (b :: bs) || containsChars sub bs

/-- Python `sub in s` on strings (substring containment). -/
def pyInStr (sub s : String) : Bool :=
  containsChars sub.data s.data

/-- Result of `MainWindow.add_action`: a built action appended to the list, a
user-facing warning dialog with no append, or an uncaught exception. -/
inductive AddResult where
  | ok (a : PyAction)
  | warned (msg : String)
  | raised (msg : String)
deriving DecidableEq, Repr

/-- Model of `MainWindow.add_action`: builds the action dict from the current widget
values (action type, snapshot label, region combo, sim/timeout spinners,
swipe spinners, message box).  Image-bearing types require a chosen snapshot
(else a warning); `keyevent` parses the message text with
`int(text or 0)`, which raises `ValueError` on non-numeric nonempty text. -/
def add_action (t img_lbl region_sel : String) (sim : ℚ) (timeout sx sy ex ey : ℤ)
    (msg : String) : AddResult :=
  let group1 := ["click", "clickimage", "waitclick", "exists", "existsClick", "imageexists",
                 "wait", "waitVanish", "ifimage_then_click"].contains t
  if group1 && (img_lbl == "No Image") then .warned "Choose image"
  else
    let a : PyAction :=
      { type := t
        img := if group1 then some img_lbl else none
        region := if group1 then some region_sel else none
        sim := if group1 then some sim else none
        timeout := if group1 then some timeout else none
        fromPt := if ["swipe", "dragDrop"].contains t then some (sx, sy) else none
        toPt := if ["swipe", "dragDrop"].contains t then some (ex, ey) else none
        duration := if t == "swipe" then some (2 / 5) else none
        message := if ["toast", "Logger"].contains t then some msg else none
        keycode := none }
    if ["keyevent", "keyevent_back"].contains t then
      if pyInStr "back" t then .ok { a with keycode := some 4 }
      else
        match (if msg == "" then some (0 : ℤ) else pyIntParse msg) with
        | some k => .ok { a with keycode := some k }
        | none => .raised "ValueError"
    else .ok a

/-- C7 (failing input): `add_action` with type `"keyevent"` and the
non-numeric message text `"abc"` raises an uncaught `ValueError` from
`int(self.msg_edit.toPlainText() or 0)` instead of surfacing a message or
being a no-op; with an empty message it succeeds with keycode 0. -/
theorem add_action_keyevent_raises :
    add_action "keyevent" "No Image" "Upper_Right" 1 15 0 0 0 0 "abc" =
      AddResult.raised "ValueError" ∧
    add_action "keyevent" "No Image" "Upper_Right" 1 15 0 0 0 0 "" =
      AddResult.ok { type := "keyevent", keycode := some 0 } := by
  constructor <;> rfl

def pad2 (m : ℕ) : String :=
  if m < 10 then "0" ++ toString m else toString m

/-- Two-decimal rendering of a similarity value (Python `f"{sim:.2f}"`);
rounding to two places, exact on the centesimal values the spin box holds. -/
def fmt2 (q : ℚ) : String :=
  let n := pytrunc (q * 100 + 1 / 2)
  let sign := if n < 0 then "-" else ""
  let m := n.natAbs
  sign ++ toString (m / 100) ++ "." ++ pad2 (m % 100)

def fracDigits : ℕ → ℚ → List ℕ
  | 0, _ => []
  | fuel + 1, r =>
    if r = 0 then []
    else
      let d := pytrunc (r * 10)
      d.toNat :: fracDigits fuel (r * 10 - (d : ℚ))

/-- Decimal rendering of a float value in an f-string (e.g. the swipe
duration `0.4`); exact on the terminating decimals the app produces. -/
def pyFloatRepr (q : ℚ) : String :=
  let sgn := if q < 0 then "-" else ""
  let a := |q|
  let ip := pytrunc a
  let ds := fracDigits 17 (a - (ip : ℚ))
  let fs := if ds.isEmpty then "0" else String.join (ds.map (fun d => toString d))
  sgn ++ toString ip ++ "." ++ fs

def insertSorted (x : String) : List String → List String
  | [] => [x]
  | y :: ys => if x ≤ y then x :: y :: ys else y :: insertSorted x ys

/-- Python `sorted` on a set of region names (ascending lexicographic). -/
def sortStrings (l : List String) : List String :=
  l.foldr insertSorted []

def regionLine (rname : String) (r : RegionRect) : String :=
  rname ++ " = Region(" ++ toString r.x ++ ", " ++ toString r.y ++ ", " ++
    toString r.w ++ ", " ++ toString r.h ++ ")"

/-- The per-action lines of `MainWindow.refresh_output`: an action carrying
the `img` key renders through one of the three image templates (or nothing —
in particular a `wait` action that carries `img` is skipped); only an
action without `img` reaches the `swipe` and `wait` templates.  The `getD`
defaults model Python `.get` defaults; for the keys `add_action` always
attaches, the default branch is unreachable. -/
def actionLine (a : PyAction) : List String :=
  match a.img with
  | some img =>
    let reg := a.region.getD ""
    let sim := fmt2 (a.sim.getD 0)
    if ["clickimage", "click", "waitclick"].contains a.type then
      ["clickimage(\"" ++ img ++ "\", 1, \"" ++ reg ++ "\", " ++ sim ++ ")"]
    else if a.type == "exists" then
      ["exists(\"" ++ img ++ "\", \"" ++ reg ++ "\", " ++ sim ++ ")"]
    else if a.type == "ifimage_then_click" then
      ["if exists(\"" ++ img ++ "\", \"" ++ reg ++ "\", " ++ sim ++ ") then click(getLastMatch()) end"]
    else []
  | none =>
    if a.type == "swipe" then
      let f := a.fromPt.getD (0, 0)
      let tp := a.toPt.getD (0, 0)
      let dur := a.duration.getD (2 / 5)
      ["swipe(Location(" ++ toString f.1 ++ "," ++ toString f.2 ++ "), Location(" ++
        toString tp.1 ++ "," ++ toString tp.2 ++ "), " ++ pyFloatRepr dur ++ ")"]
    else if a.type == "wait" then
      ["wait(" ++ toString (a.timeout.getD 1) ++ ")"]
    else []

/-- Model of `MainWindow.refresh_output`: header, one `Region(...)` line per
referenced-or-custom region name (sorted, skipping names no longer in the
mapping), the actions banner, then one rendered line per action in sequence
order. -/
def refresh_output (screen_w screen_h : ℤ) (regions : List (String × RegionRect))
    (actions : List PyAction) : List String :=
  let header := ["-- Generated by Region & Swipe Designer By ZomBroX",
                 "-- Screen " ++ toString screen_w ++ "x" ++ toString screen_h,
                 "-- Regions"]
  let regions_to_define := ((actions.filterMap (fun a => a.region)) ++
      ((regions.filter (fun p => p.2.custom)).map Prod.fst)).dedup
  let regLines := (sortStrings regions_to_define).filterMap
      (fun rname => (regions.lookup rname).map (fun r => regionLine rname r))
  header ++ regLines ++ ["\n-- AnkuLua API Actions"] ++ actions.flatMap actionLine

/-- C3 (failing input): a `wait` action built by `add_action` carries the
`img` key, so the generator's `if "img" in a` branch consumes it and emits
no line at all — the `wait(<timeout>)` template is reachable only for a
`wait` action without `img` (third conjunct). -/
theorem wait_action_not_rendered :
    add_action "wait" "a.png" "Upper_Right" (9 / 10) 15 0 0 0 0 "" =
      AddResult.ok { type := "wait", img := some "a.png", region := some "Upper_Right",
                     sim := some (9 / 10), timeout := some 15 } ∧
    refresh_output 720 1520 (compute_regions 720 1520)
        [{ type := "wait", img := some "a.png", region := some "Upper_Right",
           sim := some (9 / 10), timeout := some 15 }] =
      ["-- Generated by Region & Swipe Designer By ZomBroX",
       "-- Screen 720x1520",
       "-- Regions",
       "Upper_Right = Region(360, 0, 360, 760)",
       "\n-- AnkuLua API Actions"] ∧
    refresh_output 720 1520 (compute_regions 720 1520)
        [{ type := "wait", timeout := some 15 }] =
      ["-- Generated by Region & Swipe Designer By ZomBroX",
       "-- Screen 720x1520",
       "-- Regions",
       "\n-- AnkuLua API Actions",
       "wait(15)"] := by
  refine ⟨rfl, ?_, ?_⟩ <;> rfl

/-- Saved profile JSON: `{w, h, bg, customs, actions}`. -/
structure Profile where
  w : ℤ := 720
  h : ℤ := 1520
  bg : Option String := none
  customs : List RegionRect := []
  actions : List PyAction := []
deriving DecidableEq, Repr

/-- Combined `Canvas` + `MainWindow` state: view transform, interaction
flags, swipe points, region mapping (insertion-ordered, like a Python
dict), resolution spin boxes, background image (modelled by its source
path), action list and undo stack.  Defaults mirror `__init__`; the view
default stands in for the first `fit_view` (its exact value is irrelevant
to the theorems, which either quantify over it or fix it).  Pure UI state
(combo boxes, labels, theme, icons) is elided. -/
structure AppState where
  view : ViewT := ⟨1, 0, 0, 1, 0, 0⟩
  screen_w : ℤ := 720
  screen_h : ℤ := 1520
  bg_image : Option String := none
  bg_image_path : Option String := none
  regions : List (String × RegionRect) := compute_regions 720 1520
  selected_region : Option RegionRect := (compute_regions 720 1520).lookup "Upper_Right"
  snap_constrain_clicks : Bool := true
  region_creation_mode : Bool := false
  region_start : Option (ℤ × ℤ) := none
  region_preview : Option (ℤ × ℤ) := none
  snap_mode : Bool := false
  snap_start : Option (ℤ × ℤ) := none
  snap_preview : Option (ℤ × ℤ) := none
  swipe_start : Option (ℤ × ℤ) := none
  swipe_end : Option (ℤ × ℤ) := none
  color_pick_mode : Bool := false
  panning : Bool := false
  pan_last : ℤ × ℤ := (0, 0)
  res_w : ℤ := 720
  res_h : ℤ := 1520
  actions : List PyAction := []
  undo_stack : List (ℕ × PyAction) := []
deriving DecidableEq, Repr

/-- The converted (and, when constrain-to-region applies, clamped) screen
point used by `Canvas.mousePressEvent` for a primary click. -/
def pressPoint (s : AppState) (pos : ℤ × ℤ) : ℤ × ℤ :=
  let p0 := s.view.canvas_to_screen pos.1 pos.2
  match s.selected_region with
  | some r =>
    if s.snap_constrain_clicks && !(s.snap_mode || s.region_creation_mode) then
      r.clampPt p0.1 p0.2
    else p0
  | none => p0

/-- Model of `Canvas.mousePressEvent`: right button starts a pan session; an armed
eyedropper consumes the click (sampling or warning, either way returning
before the swipe logic, with the mode cleared); snap mode and region mode
record their drag origins; otherwise the first click sets `swipe_start` and
every further click sets `swipe_end`. -/
def mousePressEvent (s : AppState) (pos : ℤ × ℤ) (rightButton : Bool) : AppState :=
  if rightButton then { s with panning := true, pan_last := pos }
  else if s.color_pick_mode then { s with color_pick_mode := false }
  else
    let p := pressPoint s pos
    if s.snap_mode then { s with snap_start := some p, snap_preview := some p }
    else if s.region_creation_mode then { s with region_start := some p, region_preview := some p }
    else
      match s.swipe_start with
      | none => { s with swipe_start := some p }
      | some _ => { s with swipe_end := some p }

/-- The custom-region insertion of `Canvas.mouseReleaseEvent` (after the
name prompt was confirmed): a duplicate name shows an error dialog and
leaves everything unchanged (`true` in the second component reports the
duplicate); otherwise the region is inserted with `custom = True` and
becomes the selection. -/
def addCustomRegion (s : AppState) (name : String) (x y w h : ℤ) : AppState × Bool :=
  if (s.regions.map Prod.fst).contains name then (s, true)
  else
    let reg : RegionRect := ⟨name, x, y, w, h, true⟩
    ({ s with regions := s.regions ++ [(name, reg)], selected_region := some reg }, false)

/-- Python `list.insert(n, x)`: insert before position `n`, clamping `n`
to the end of the list. -/
def pyInsert {α : Type} (n : ℕ) (x : α) (l : List α) : List α :=
  l.take n ++ x :: l.drop n

/-- Python index normalization: a negative index counts from the end. -/
def pyIdx (len : ℕ) (i : ℤ) : ℤ :=
  if i < 0 then (len : ℤ) + i else i

/-- Python `l[i]` as an `Option` (`none` models `IndexError`). -/
def pyGet? {α : Type} (l : List α) (i : ℤ) : Option α :=
  let j := pyIdx l.length i
  if 0 ≤ j then l.get? j.toNat else none

/-- Python `l[i] = x` (callers only reach it on indices where `pyGet?`
succeeds, so the out-of-range branch returning `l` is unreachable). -/
def pySet {α : Type} (l : List α) (i : ℤ) (x : α) : List α :=
  let j := pyIdx l.length i
  if 0 ≤ j then l.set j.toNat x else l

/-- Exchange of the elements at positions `i` and `j` (used to state what
`move_action` does on in-range indices). -/
def listSwap {α : Type} (l : List α) (i j : ℕ) : List α :=
  match l.get? i, l.get? j with
  | some a, some b => (l.set i b).set j a
  | _, _ => l

/-- Model of `MainWindow.delete_action`: with a selected row (`currentRow() >= 0`)
pop it from the list and push `(row, item)` on the undo stack.  The `none`
branch models the `IndexError` of `pop` on a row past the end, which the
list widget cannot produce. -/
def delete_action (s : AppState) (row : ℤ) : AppState :=
  if 0 ≤ row then
    match s.actions.get? row.toNat with
    | some item =>
      { s with actions := s.actions.eraseIdx row.toNat,
               undo_stack := s.undo_stack ++ [(row.toNat, item)] }
    | none => s
  else s

/-- Model of `MainWindow.undo_action`: pop the most recent `(row, item)` from the
undo stack and reinsert `item` at `row`; a no-op on an empty stack. -/
def undo_action (s : AppState) : AppState :=
  match s.undo_stack.getLast? with
  | none => s
  | some (row, item) =>
    { s with actions := pyInsert row item s.actions, undo_stack := s.undo_stack.dropLast }

/-- Model of `MainWindow.move_action`: guarded only by `0 <= row + d < len(actions)`;
on the swap path `self.actions[row]` uses Python semantics, so a negative
`row` counts from the end of the list.  The catch-all match arm models the
`IndexError` of reading an index outside `[-len, len)`, unreachable from
the widget (whose `currentRow()` is at least `-1` and below the length). -/
def move_action (s : AppState) (row d : ℤ) : AppState :=
  if 0 ≤ row + d ∧ row + d < (s.actions.length : ℤ) then
    match pyGet? s.actions row, pyGet? s.actions (row + d) with
    | some a, some b =>
      { s with actions := pySet (pySet s.actions row b) (row + d) a }
    | _, _ => s
  else s

/-- Python dict assignment `d[k] = v`: replace in place when the key is
present, else append (insertion order preserved). -/
def dictSet (l : List (String × RegionRect)) (k : String) (v : RegionRect) :
    List (String × RegionRect) :=
  if (l.map Prod.fst).contains k then
    l.map (fun p => if p.1 = k then (k, v) else p)
  else l ++ [(k, v)]

/-- Model of `MainWindow.apply_resolution`: regenerate the presets from the spin-box
values and overlay every existing custom region by name.  The combo-box
repopulation is UI and elided. -/
def apply_resolution (s : AppState) : AppState :=
  let presets := (s.regions.filter (fun p => p.2.custom)).foldl
      (fun acc p => dictSet acc p.1 p.2) (compute_regions s.res_w s.res_h)
  { s with screen_w := s.res_w, screen_h := s.res_h, regions := presets }

/-- The spin boxes clamp `setValue` into their range `[100, 10000]`. -/
def spinClamp (v : ℤ) : ℤ :=
  max 100 (min v 10000)

/-- The background step of `load_profile`:
`if data.get("bg") and os.path.exists(data.get("bg")): self.load_bg(...)`.
The path is loaded only when truthy (nonempty) and it still resolves
(`pathExists` models `os.path.exists` plus image loadability). -/
def load_bg_step (s : AppState) (bg : Option String) (pathExists : String → Bool) : AppState :=
  match bg with
  | some p =>
    if p ≠ "" ∧ pathExists p then { s with bg_image := some p, bg_image_path := some p }
    else s
  | none => s

/-- Model of `MainWindow.load_profile` after a file was chosen and parsed: set the
resolution spin boxes and apply the resolution, load the background only
when the stored path is truthy and still exists, re-insert the saved custom
regions, and replace the action list wholesale.  The second component
collects the user-facing messages shown along the way — there are none on
this path. -/
def load_profile (s : AppState) (data : Profile) (pathExists : String → Bool) :
    AppState × List String :=
  let s2 := apply_resolution { s with res_w := spinClamp data.w, res_h := spinClamp data.h }
  let s3 := load_bg_step s2 data.bg pathExists
  ({ s3 with
      regions := data.customs.foldl (fun acc (c : RegionRect) => dictSet acc c.name c) s3.regions,
      actions := data.actions }, [])

/-- Model of `MainWindow.reset_app`: reset the resolution spin boxes to the
defaults, apply the resolution, drop the background image and clear the
action list.  The undo stack (and the stored background path) are not
touched. -/
def reset_app (s : AppState) : AppState :=
  let s1 := { s with res_w := 720, res_h := 1520 }
  let s2 := apply_resolution s1
  { s2 with bg_image := none, actions := [] }

theorem lookup_append_single_ne {α : Type} (l : List (String × α)) (k : String) (v : α)
    (k' : String) (h : k' ≠ k) : (l ++ [(k, v)]).lookup k' = l.lookup k' := by
  induction l with
  | nil => simp [List.lookup, beq_eq_false_iff_ne.mpr h]
  | cons hd tl ih =>
    obtain ⟨k0, v0⟩ := hd
    cases hb : (k' == k0) <;>
      simp [List.cons_append, List.lookup, hb, ih]

theorem lookup_append_self {α : Type} (l : List (String × α)) (k : String) (v : α)
    (h : (l.map Prod.fst).contains k = false) :
    (l ++ [(k, v)]).lookup k = some v := by
  induction l with
  | nil => simp [List.lookup]
  | cons hd tl ih =>
    obtain ⟨k0, v0⟩ := hd
    simp only [List.map_cons, List.contains_cons, Bool.or_eq_false_iff] at h
    simp [List.cons_append, List.lookup, h.1, ih h.2]

theorem lookup_map_replace_self {α : Type} (l : List (String × α)) (k : String) (v : α)
    (hmem : (l.map Prod.fst).contains k = true) :
    (l.map (fun p => if p.1 = k then (k, v) else p)).lookup k = some v := by
  induction l with
  | nil => simp at hmem
  | cons hd tl ih =>
    obtain ⟨k0, v0⟩ := hd
    simp only [List.map_cons]
    by_cases hh : k0 = k
    · rw [if_pos hh]
      simp [List.lookup]
    · rw [if_neg hh]
      have htl : (tl.map Prod.fst).contains k = true := by
        simp only [List.map_cons, List.contains_cons, Bool.or_eq_true] at hmem
        rcases hmem with hmem | hmem
        · exact absurd (beq_iff_eq.mp hmem).symm hh
        · exact hmem
      simp [List.lookup, beq_eq_false_iff_ne.mpr (Ne.symm hh), ih htl]

theorem lookup_map_replace_ne {α : Type} (l : List (String × α)) (k : String) (v : α)
    (k' : String) (h : k' ≠ k) :
    (l.map (fun p => if p.1 = k then (k, v) else p)).lookup k' = l.lookup k' := by
  induction l with
  | nil => rfl
  | cons hd tl ih =>
    obtain ⟨k0, v0⟩ := hd
    simp only [List.map_cons]
    by_cases hh : k0 = k
    · rw [if_pos hh]
      simp [List.lookup, beq_eq_false_iff_ne.mpr h,
        beq_eq_false_iff_ne.mpr (fun he => h (he.trans hh)), ih]
    · rw [if_neg hh]
      cases hb : (k' == k0) <;> simp [List.lookup, hb, ih]

theorem dictSet_lookup_self (l : List (String × RegionRect)) (k : String) (v : RegionRect) :
    (dictSet l k v).lookup k = some v := by
  unfold dictSet
  split
  · next h => exact lookup_map_replace_self l k v h
  · next h => exact lookup_append_self l k v (by simpa using h)

theorem dictSet_lookup_ne (l : List (String × RegionRect)) (k : String) (v : RegionRect)
    (k' : String) (h : k' ≠ k) : (dictSet l k v).lookup k' = l.lookup k' := by
  unfold dictSet
  split
  · exact lookup_map_replace_ne l k v k' h
  · exact lookup_append_single_ne l k v k' h

theorem lookup_foldl_dictSet_of_not_mem :
    ∀ (cs : List RegionRect) (base : List (String × RegionRect)) (k : String),
      k ∉ cs.map RegionRect.name →
      (cs.foldl (fun acc (r : RegionRect) => dictSet acc r.name r) base).lookup k =
        base.lookup k := by
  intro cs
  induction cs with
  | nil => intro base k _; rfl
  | cons hd tl ih =>
    intro base k hk
    simp only [List.map_cons, List.mem_cons, not_or] at hk
    simp only [List.foldl_cons]
    rw [ih _ _ hk.2, dictSet_lookup_ne _ _ _ _ hk.1]

theorem lookup_foldl_dictSet :
    ∀ (cs : List RegionRect), (cs.map RegionRect.name).Nodup →
      ∀ (base : List (String × RegionRect)), ∀ c ∈ cs,
      (cs.foldl (fun acc (r : RegionRect) => dictSet acc r.name r) base).lookup c.name =
        some c := by
  intro cs
  induction cs with
  | nil => intro _ base c hc; simp at hc
  | cons hd tl ih =>
    intro hnodup base c hc
    simp only [List.map_cons, List.nodup_cons] at hnodup
    simp only [List.foldl_cons]
    rcases List.mem_cons.mp hc with rfl | hc
    · rw [lookup_foldl_dictSet_of_not_mem tl _ _ hnodup.1, dictSet_lookup_self]
    · exact ih hnodup.2 _ c hc

theorem canvas_to_screen_id (cx cy : ℤ) :
    (ViewT.mk 1 0 0 1 0 0).canvas_to_screen cx cy = (cx, cy) := by
  simp only [ViewT.canvas_to_screen, ViewT.actual_scale, ViewT.final_offsets]
  norm_num [pytrunc_intCast]

/-- Idle canvas with constrain-to-region off, clicked three times at
`(1,1)`, `(2,2)`, `(3,3)`. -/
def cexPressState : AppState :=
  mousePressEvent (mousePressEvent (mousePressEvent
    { snap_constrain_clicks := false, selected_region := none }
    (1, 1) false) (2, 2) false) (3, 3) false

/-- C1 (counterexample): after three primary clicks in idle mode the swipe
start is still the first click and the swipe end is the third click — the
third pointer-down merely replaces the swipe-end; it does not become a new
swipe-start with the old pair discarded. -/
theorem swipe_third_press_keeps_pair :
    cexPressState.swipe_start = some (1, 1) ∧ cexPressState.swipe_end = some (3, 3) ∧
    ¬(cexPressState.swipe_start = some (3, 3) ∧ cexPressState.swipe_end = none) := by
  have h : cexPressState.swipe_start = some (1, 1) ∧ cexPressState.swipe_end = some (3, 3) := by
    unfold cexPressState
    simp [mousePressEvent, pressPoint, canvas_to_screen_id]
  exact ⟨h.1, h.2, by simp [h.1, h.2]⟩

/-- C1 (amended): in idle mode (no eyedropper, no snap mode, no region
mode) a primary click sets the swipe-start when none is set, and otherwise
— on the second, third and every further click — replaces the swipe-end
while keeping the swipe-start; the pair is never discarded by a click. -/
theorem swipe_press_spec (s : AppState) (pos : ℤ × ℤ)
    (hc : s.color_pick_mode = false) (hs : s.snap_mode = false)
    (hr : s.region_creation_mode = false) :
    (s.swipe_start = none →
      mousePressEvent s pos false = { s with swipe_start := some (pressPoint s pos) }) ∧
    (∀ q, s.swipe_start = some q →
      mousePressEvent s pos false = { s with swipe_end := some (pressPoint s pos) }) := by
  constructor
  · intro h
    simp [mousePressEvent, hc, hs, hr, h]
  · intro q h
    simp [mousePressEvent, hc, hs, hr, h]

theorem swipe_press_spec_witness :
    (({ swipe_start := some (5, 5) } : AppState).color_pick_mode = false ∧
     ({ swipe_start := some (5, 5) } : AppState).snap_mode = false ∧
     ({ swipe_start := some (5, 5) } : AppState).region_creation_mode = false ∧
     ({ swipe_start := some (5, 5) } : AppState).swipe_start = some (5, 5)) ∧
    mousePressEvent { swipe_start := some (5, 5) } (2, 3) false =
      { ({ swipe_start := some (5, 5) } : AppState) with
        swipe_end := some (pressPoint { swipe_start := some (5, 5) } (2, 3)) } :=
  ⟨⟨rfl, rfl, rfl, rfl⟩,
   (swipe_press_spec { swipe_start := some (5, 5) } (2, 3) rfl rfl rfl).2 (5, 5) rfl⟩

def actToast : PyAction := { type := "toast", message := some "a" }

def actWait1 : PyAction := { type := "wait", timeout := some 1 }

def seqSample : AppState := { actions := [actToast, actWait1] }

theorem move_action_swap (s : AppState) (row d : ℤ)
    (h1 : -(s.actions.length : ℤ) ≤ row) (h2 : row < (s.actions.length : ℤ))
    (hg1 : 0 ≤ row + d) (hg2 : row + d < (s.actions.length : ℤ)) :
    move_action s row d =
      { s with actions :=
          listSwap s.actions (pyIdx s.actions.length row).toNat (row + d).toNat } := by
  have hi0 : 0 ≤ pyIdx s.actions.length row := by
    unfold pyIdx; split <;> omega
  have hi1 : (pyIdx s.actions.length row).toNat < s.actions.length := by
    unfold pyIdx; split <;> omega
  have hj1 : (row + d).toNat < s.actions.length := by omega
  have hgr : pyGet? s.actions row =
      some (s.actions.get ⟨(pyIdx s.actions.length row).toNat, hi1⟩) := by
    unfold pyGet?
    rw [if_pos hi0, List.get?_eq_get hi1]
  have hjx : pyIdx s.actions.length (row + d) = row + d := by
    unfold pyIdx; split <;> omega
  have hgj : pyGet? s.actions (row + d) =
      some (s.actions.get ⟨(row + d).toNat, hj1⟩) := by
    unfold pyGet?
    rw [hjx, if_pos hg1, List.get?_eq_get hj1]
  unfold move_action
  rw [if_pos ⟨hg1, hg2⟩]
  simp only [hgr, hgj]
  congr 1
  unfold listSwap
  rw [List.get?_eq_get hi1, List.get?_eq_get hj1]
  unfold pySet
  rw [if_pos hi0]
  simp only [List.length_set]
  rw [hjx, if_pos hg1]

theorem move_action_noop (s : AppState) (row d : ℤ)
    (hg : ¬(0 ≤ row + d ∧ row + d < (s.actions.length : ℤ))) :
    move_action s row d = s := by
  unfold move_action
  rw [if_neg hg]

/-- C2 (amended): `move_action` checks only that `row + d` is in bounds;
on that path the element at the Python-normalized position of `row`
(negative indices count from the end) is exchanged with the one at
`row + d`, and in particular `row = -1` (no selection) with `d = 1` on a
nonempty list swaps the last and first elements; it is a no-op exactly when
`row + d` is out of bounds. -/
theorem move_action_spec (s : AppState) (row d : ℤ)
    (h1 : -(s.actions.length : ℤ) ≤ row) (h2 : row < (s.actions.length : ℤ)) :
    (0 ≤ row + d ∧ row + d < (s.actions.length : ℤ) →
      move_action s row d =
        { s with actions :=
            listSwap s.actions (pyIdx s.actions.length row).toNat (row + d).toNat }) ∧
    (¬(0 ≤ row + d ∧ row + d < (s.actions.length : ℤ)) → move_action s row d = s) ∧
    (row = -1 → d = 1 → 0 < s.actions.length →
      move_action s row d =
        { s with actions := listSwap s.actions (s.actions.length - 1) 0 }) := by
  refine ⟨fun hg => move_action_swap s row d h1 h2 hg.1 hg.2,
          fun hg => move_action_noop s row d hg, ?_⟩
  rintro rfl rfl hlen
  have e1 : (pyIdx s.actions.length (-1)).toNat = s.actions.length - 1 := by
    unfold pyIdx
    split <;> omega
  have e2 : ((-1 : ℤ) + 1).toNat = 0 := by decide
  rw [move_action_swap s (-1) 1 h1 h2 (by omega) (by omega), e1, e2]

theorem move_action_spec_witness :
    (-(seqSample.actions.length : ℤ) ≤ 0 ∧ (0 : ℤ) < (seqSample.actions.length : ℤ) ∧
      (0 : ℤ) ≤ 0 + 1 ∧ (0 : ℤ) + 1 < (seqSample.actions.length : ℤ)) ∧
    move_action seqSample 0 1 =
      { seqSample with actions :=
          (listSwap seqSample.actions (pyIdx seqSample.actions.length 0).toNat
            ((0 : ℤ) + 1).toNat) } :=
  ⟨⟨by decide, by decide, by decide, by decide⟩,
   (move_action_spec seqSample 0 1 (by decide) (by decide)).1 ⟨by decide, by decide⟩⟩

/-- C2 (counterexample): with no row selected (`currentRow() = -1`) and a
two-element action list, "move down" (`delta = +1`) is not a no-op: Python
indexing makes `actions[-1]` the last element, so the last and first
actions are swapped. -/
theorem move_action_neg_index_swaps :
    (move_action seqSample (-1) 1).actions = [actWait1, actToast] ∧
    [actWait1, actToast] ≠ [actToast, actWait1] := by
  exact ⟨rfl, by decide⟩

/-- C5: adding a custom region under a name already present (case-sensitive
exact key match) leaves the whole state — in particular the mapping —
unchanged and reports the duplicate; under a fresh name the region is
inserted with `custom = true`, is found under its name, and becomes the
current selection. -/
theorem addCustomRegion_spec (s : AppState) (name : String) (x y w h : ℤ) :
    ((s.regions.map Prod.fst).contains name = true →
      addCustomRegion s name x y w h = (s, true)) ∧
    ((s.regions.map Prod.fst).contains name = false →
      addCustomRegion s name x y w h =
        ({ s with regions := s.regions ++ [(name, ⟨name, x, y, w, h, true⟩)],
                  selected_region := some ⟨name, x, y, w, h, true⟩ }, false) ∧
      ((addCustomRegion s name x y w h).1.regions).lookup name =
        some ⟨name, x, y, w, h, true⟩ ∧
      (addCustomRegion s name x y w h).1.selected_region =
        some ⟨name, x, y, w, h, true⟩) := by
  constructor
  · intro hmem
    unfold addCustomRegion
    rw [if_pos hmem]
  · intro hmem
    have hne := ne_true_of_eq_false hmem
    refine ⟨?_, ?_, ?_⟩
    · unfold addCustomRegion
      rw [if_neg hne]
    · simp only [addCustomRegion, if_neg hne]
      exact lookup_append_self s.regions name _ hmem
    · simp only [addCustomRegion, if_neg hne]

theorem addCustomRegion_spec_witness :
    ((({ regions := [("A", ⟨"A", 0, 0, 5, 5, false⟩)] } : AppState).regions.map
        Prod.fst).contains "B" = false ∧
     (({ regions := [("A", ⟨"A", 0, 0, 5, 5, false⟩)] } : AppState).regions.map
        Prod.fst).contains "A" = true) ∧
    ((addCustomRegion { regions := [("A", ⟨"A", 0, 0, 5, 5, false⟩)] } "B" 1 2 3 4).1.regions).lookup "B" =
      some ⟨"B", 1, 2, 3, 4, true⟩ ∧
    addCustomRegion { regions := [("A", ⟨"A", 0, 0, 5, 5, false⟩)] } "A" 1 2 3 4 =
      ({ regions := [("A", ⟨"A", 0, 0, 5, 5, false⟩)] }, true) :=
  ⟨⟨by decide, by decide⟩,
   ((addCustomRegion_spec { regions := [("A", ⟨"A", 0, 0, 5, 5, false⟩)] } "B" 1 2 3 4).2
      (by decide)).2.1,
   (addCustomRegion_spec { regions := [("A", ⟨"A", 0, 0, 5, 5, false⟩)] } "A" 1 2 3 4).1
      (by decide)⟩

theorem pyInsert_eraseIdx {α : Type} (l : List α) (i : ℕ) (h : i < l.length) :
    pyInsert i (l.get ⟨i, h⟩) (l.eraseIdx i) = l := by
  induction l generalizing i with
  | nil => simp at h
  | cons x xs ih =>
    cases i with
    | zero => rfl
    | succ n =>
      have hn : n < xs.length := by simpa using h
      show x :: pyInsert n (xs.get ⟨n, hn⟩) (xs.eraseIdx n) = x :: xs
      rw [ih n hn]

theorem delete_action_eq (s : AppState) (i : ℕ) (h : i < s.actions.length) :
    delete_action s (i : ℤ) =
      { s with actions := s.actions.eraseIdx i,
               undo_stack := s.undo_stack ++ [(i, s.actions.get ⟨i, h⟩)] } := by
  unfold delete_action
  rw [if_pos (Int.natCast_nonneg i)]
  simp only [Int.toNat_natCast, List.get?_eq_get h]

theorem undo_delete (s : AppState) (i : ℕ) (h : i < s.actions.length) :
    undo_action (delete_action s (i : ℤ)) = s := by
  rw [delete_action_eq s i h]
  unfold undo_action
  simp only [List.getLast?_concat, List.dropLast_concat]
  rw [pyInsert_eraseIdx s.actions i h]

/-- C6: deleting a valid index then undoing restores the exact state
(action back at its index, stack popped); two consecutive deletions are
undone in reverse order — one undo restores the second deletion, a second
undo restores the first; and undo on an empty undo stack is a no-op. -/
theorem delete_undo_lifo (s : AppState) :
    (∀ i : ℕ, i < s.actions.length → undo_action (delete_action s (i : ℤ)) = s) ∧
    (∀ i j : ℕ, i < s.actions.length →
      j < (delete_action s (i : ℤ)).actions.length →
      undo_action (delete_action (delete_action s (i : ℤ)) (j : ℤ)) =
        delete_action s (i : ℤ) ∧
      undo_action (undo_action (delete_action (delete_action s (i : ℤ)) (j : ℤ))) = s) ∧
    (s.undo_stack = [] → undo_action s = s) := by
  refine ⟨fun i h => undo_delete s i h, fun i j hi hj => ?_, fun h => ?_⟩
  · exact ⟨undo_delete _ j hj, by rw [undo_delete _ j hj, undo_delete s i hi]⟩
  · unfold undo_action
    rw [h]
    rfl

theorem delete_undo_lifo_witness :
    (0 < seqSample.actions.length ∧ seqSample.undo_stack = []) ∧
    undo_action (delete_action seqSample ((0 : ℕ) : ℤ)) = seqSample ∧
    undo_action seqSample = seqSample :=
  ⟨⟨by decide, rfl⟩,
   (delete_undo_lifo seqSample).1 0 (by decide),
   (delete_undo_lifo seqSample).2.2 rfl⟩

theorem reset_app_undo_stack (s : AppState) : (reset_app s).undo_stack = s.undo_stack :=
  rfl

theorem reset_app_actions (s : AppState) : (reset_app s).actions = [] :=
  rfl

theorem load_profile_msgs (s : AppState) (d : Profile) (f : String → Bool) :
    (load_profile s d f).2 = [] :=
  rfl

theorem load_profile_actions (s : AppState) (d : Profile) (f : String → Bool) :
    (load_profile s d f).1.actions = d.actions :=
  rfl

theorem load_bg_step_undo_stack (s : AppState) (b : Option String) (f : String → Bool) :
    (load_bg_step s b f).undo_stack = s.undo_stack := by
  cases b with
  | none => rfl
  | some p =>
    simp only [load_bg_step]
    split <;> rfl

theorem load_bg_step_of_stale (s : AppState) (p : String) (f : String → Bool)
    (hf : f p = false) : load_bg_step s (some p) f = s := by
  simp only [load_bg_step]
  rw [if_neg (by simp [hf])]

theorem load_profile_undo_stack (s : AppState) (d : Profile) (f : String → Bool) :
    (load_profile s d f).1.undo_stack = s.undo_stack := by
  show (load_bg_step
      (apply_resolution { s with res_w := spinClamp d.w, res_h := spinClamp d.h })
      d.bg f).undo_stack = s.undo_stack
  rw [load_bg_step_undo_stack]
  rfl

/-- C8 (counterexample): loading a profile whose stored background path no
longer resolves surfaces no message at all — the load continues without the
background, but silently, contradicting "reports the stale path to the
user". -/
theorem load_profile_stale_bg_silent :
    (load_profile {} { bg := some "gone.png" } (fun _ => false)).2 = [] ∧
    (load_profile {} { bg := some "gone.png" } (fun _ => false)).1.bg_image = none := by
  constructor
  · rfl
  · rfl

/-- C8 (amended): with a stale background path the load does not crash and
continues — restoring resolution, custom regions and actions, leaving the
background unloaded — but it surfaces no report of the stale path. -/
theorem load_profile_stale_bg_spec (s : AppState) (data : Profile) (f : String → Bool)
    (p : String) (hbg : data.bg = some p) (hf : f p = false)
    (hnodup : (data.customs.map RegionRect.name).Nodup) :
    (load_profile s data f).2 = [] ∧
    (load_profile s data f).1.bg_image = s.bg_image ∧
    (load_profile s data f).1.actions = data.actions ∧
    (load_profile s data f).1.screen_w = spinClamp data.w ∧
    (load_profile s data f).1.screen_h = spinClamp data.h ∧
    ∀ c ∈ data.customs, (load_profile s data f).1.regions.lookup c.name = some c := by
  have hmaster : (load_profile s data f).1 =
      { apply_resolution { s with res_w := spinClamp data.w, res_h := spinClamp data.h } with
        regions := (data.customs.foldl (fun acc (c : RegionRect) => dictSet acc c.name c)
          (apply_resolution
            { s with res_w := spinClamp data.w, res_h := spinClamp data.h }).regions),
        actions := data.actions } := by
    simp only [load_profile]
    rw [hbg, load_bg_step_of_stale _ _ _ hf]
  rw [load_profile_msgs, hmaster]
  exact ⟨rfl, rfl, rfl, rfl, rfl,
    fun c hc => lookup_foldl_dictSet data.customs hnodup _ c hc⟩

theorem load_profile_stale_bg_spec_witness :
    (({ bg := some "g.png", customs := [⟨"C", 1, 2, 3, 4, true⟩] } : Profile).bg =
        some "g.png" ∧
     (fun (_ : String) => false) "g.png" = false ∧
     ((({ bg := some "g.png", customs := [⟨"C", 1, 2, 3, 4, true⟩] } : Profile).customs.map
        RegionRect.name).Nodup)) ∧
    ∀ c ∈ ({ bg := some "g.png", customs := [⟨"C", 1, 2, 3, 4, true⟩] } : Profile).customs,
      (load_profile {} { bg := some "g.png", customs := [⟨"C", 1, 2, 3, 4, true⟩] }
          (fun _ => false)).1.regions.lookup c.name = some c :=
  ⟨⟨rfl, rfl, by decide⟩,
   (load_profile_stale_bg_spec {} { bg := some "g.png", customs := [⟨"C", 1, 2, 3, 4, true⟩] }
      (fun _ => false) "g.png" rfl rfl (by decide)).2.2.2.2.2⟩

/-- C10: neither `reset_app` nor `load_profile` clears the undo stack:
after deleting action `i` the stale `(i, action)` entry survives a Reset
All and a profile load, and a subsequent undo reinserts that action into
the new, unrelated action list (into the emptied list after reset, and
into the loaded profile's list after a load). -/
theorem undo_stack_survives_reset_and_load (s : AppState) (i : ℕ)
    (h : i < s.actions.length) (data : Profile) (pf : String → Bool) :
    (reset_app (delete_action s (i : ℤ))).undo_stack =
      s.undo_stack ++ [(i, s.actions.get ⟨i, h⟩)] ∧
    ((load_profile (delete_action s (i : ℤ)) data pf).1).undo_stack =
      s.undo_stack ++ [(i, s.actions.get ⟨i, h⟩)] ∧
    (undo_action (reset_app (delete_action s (i : ℤ)))).actions =
      [s.actions.get ⟨i, h⟩] ∧
    (undo_action ((load_profile (delete_action s (i : ℤ)) data pf).1)).actions =
      pyInsert i (s.actions.get ⟨i, h⟩) data.actions := by
  rw [delete_action_eq s i h]
  refine ⟨rfl, load_profile_undo_stack _ _ _, ?_, ?_⟩
  · unfold undo_action
    rw [reset_app_undo_stack]
    simp only [List.getLast?_concat, List.dropLast_concat, reset_app_actions]
    simp [pyInsert]
  · unfold undo_action
    rw [load_profile_undo_stack]
    simp only [List.getLast?_concat, List.dropLast_concat, load_profile_actions]

theorem undo_stack_survives_witness :
    0 < seqSample.actions.length ∧
    (undo_action (reset_app (delete_action seqSample ((0 : ℕ) : ℤ)))).actions =
      [seqSample.actions.get ⟨0, by decide⟩] ∧
    (undo_action ((load_profile (delete_action seqSample ((0 : ℕ) : ℤ)) {}
        (fun _ => false)).1)).actions =
      pyInsert 0 (seqSample.actions.get ⟨0, by decide⟩) (({} : Profile).actions) :=
  ⟨by decide,
   (undo_stack_survives_reset_and_load seqSample 0 (by decide) {} (fun _ => false)).2.2.1,
   (undo_stack_survives_reset_and_load seqSample 0 (by decide) {} (fun _ => false)).2.2.2⟩

end ZomMation
